import Mathlib

/-!
Shallow embedding of `src/PrintusEjectus.py` (a G-code post-processor that
injects a part-ejection sequence after the end-of-print sentinel).

Modelling conventions:
* a line of the input file is a Lean `String` (Python `readlines` keeps the
  trailing `\n`, and all sentinel comparisons in the source are exact string
  comparisons including the terminator);
* Python floats are modelled as exact rationals `ℚ`; the values handled by
  the program are decimal literals `d+.d+` extracted by the regex, their
  sums, differences and quotients, all rendered exactly in `ℚ`;
* Python exceptions are modelled with `Except PyErr` / an `Option PyErr`
  component: `IndexError` (out-of-range indexing), `ValueError`
  (`max()`/`min()` of an empty sequence), `ZeroDivisionError`
  (`sum(xs)/len(xs)` with `len(xs) = 0`);
* the in-place mutation `lines.pop(0)` performed by `get_x_coordinates` is
  modelled by returning the mutated list alongside the samples, and
  `create_output` iterates over that mutated list, exactly as the aliased
  Python list does;
* `create_output` opens (hence creates/truncates) its output file before any
  computation, so its model returns a triple
  `(file created?, lines written so far, error if any)`.
-/

set_option autoImplicit false

namespace PrintusEjectus

/-- Python exceptions raised by the modelled code paths. -/
inductive PyErr where
  | indexError : PyErr
  | valueError : PyErr
  | zeroDivisionError : PyErr
deriving DecidableEq

/-! ### Configuration constants (source lines 29-47) -/

def PRINTSTART : String := "PRINT_START\n"

def PRINTEND : String := "; EXECUTABLE_BLOCK_END\n"

def LAYERCHANGE : String := ";LAYER_CHANGE\n"

def IGNOREDLAYERS : Nat := 2

def PRINTOFFCOMMENT : String := "; PUSH PRINT OFF BED\n"

def COOLINGTEMP : Nat := 30

/-- Source: `f"M109 S{COOLINGTEMP}; Waits for the nozzle to cool down\n"`. -/
def COOLOFFNOZZLE : String :=
  "M109 S" ++ Nat.repr COOLINGTEMP ++ "; Waits for the nozzle to cool down\n"

def HOMEXY : String := "G28 X Y; Homes the X and Y axis\n"

def GOTOBACK : String := "G1 X• Y260; Goes to the back of the printer\n"

def GOTOBED : String := "G28 Z; Goes to the bed for print removal\n"

def PUSHCOORDINATES : String := "G1 Y20; Push print off bed\n"

/-! ### The regex `X\d+\.\d+` and `float()` parsing (source lines 92-94) -/

/-- Numeric value of a decimal digit character. -/
def digitVal (c : Char) : Nat := c.toNat - 48

/-- Value of a digit string read in base 10. -/
def natOfDigits (l : List Char) : Nat :=
  l.foldl (fun n c => 10 * n + digitVal c) 0

/-- `float()` applied to the text `a.b` (integer digits `a`, fraction
digits `b`): exact rational value of the decimal literal. -/
def decVal (a b : List Char) : ℚ :=
  (natOfDigits a : ℚ) + (natOfDigits b : ℚ) / 10 ^ b.length

/-- One attempt of the regex engine to match `X\d+\.\d+` at the head of the
remaining text: on success returns the greedy integer-digit run, the greedy
fraction-digit run, and the unconsumed rest. -/
def tryX : List Char → Option (List Char × List Char × List Char)
  | [] => none
  | c :: t =>
    if c = 'X' then
      if t.takeWhile Char.isDigit = [] then none
      else
        match t.dropWhile Char.isDigit with
        | [] => none
        | d :: r2 =>
          if d = '.' then
            if r2.takeWhile Char.isDigit = [] then none
            else
              some (t.takeWhile Char.isDigit, r2.takeWhile Char.isDigit,
                r2.dropWhile Char.isDigit)
          else none
    else none

/-- `re.search(r"X\d+\.\d+", line)` followed by `float(x.group()[1:])`:
scan left to right, return the parsed value of the leftmost match, `none`
when the pattern occurs nowhere in the line. -/
def searchX : List Char → Option ℚ
  | [] => none
  | c :: t =>
    match tryX (c :: t) with
    | some (d1, d2, _) => some (decVal d1 d2)
    | none => searchX t

/-! ### Region extraction and coordinate sampling (source lines 70-96) -/

/-- The loop `while lines[0] != PRINTSTART: lines.pop(0)`: pops leading
lines until the first start sentinel; indexing `lines[0]` on the exhausted
list raises `IndexError`. Returns the mutated list. -/
def dropToStart : List String → Except PyErr (List String)
  | [] => Except.error PyErr.indexError
  | l :: ls => if l = PRINTSTART then Except.ok (l :: ls) else dropToStart ls

/-- `currentLayer += 1` on a layer-change line, executed before the same
line's eligibility test (source lines 87-88). -/
def bumpLayer (line : String) (layer : Nat) : Nat :=
  if line = LAYERCHANGE then layer + 1 else layer

/-- The `for line in lines` scan of `get_x_coordinates` (source lines
82-94): stop at the end sentinel, increment the layer counter on each
layer-change line before testing the same line's eligibility, sample the
first `X\d+\.\d+` occurrence of each line starting with `G` at an eligible
layer. `line[0]` on an empty line raises `IndexError`. -/
def scanLoop : List String → Nat → Except PyErr (List ℚ)
  | [], _ => Except.ok []
  | line :: rest, layer =>
    if line = PRINTEND then Except.ok []
    else
      match line.data with
      | [] => Except.error PyErr.indexError
      | c :: _ =>
        if c = 'G' ∧ IGNOREDLAYERS < bumpLayer line layer then
          match searchX line.data with
          | some v =>
            (scanLoop rest (bumpLayer line layer)).map (fun xs => v :: xs)
          | none => scanLoop rest (bumpLayer line layer)
        else scanLoop rest (bumpLayer line layer)

/-- `get_x_coordinates` (source lines 70-96).  Returns both the mutated
line list (the suffix from the first start sentinel, visible to the caller
through aliasing) and the collected samples. -/
def get_x_coordinates (lines : List String) :
    Except PyErr (List String × List ℚ) :=
  match dropToStart lines with
  | Except.error e => Except.error e
  | Except.ok rest => (scanLoop rest 1).map (fun xs => (rest, xs))

/-! ### Statistics (source lines 100-113) -/

/-- Python `max` over a list; `ValueError` on the empty list. -/
def pyMax : List ℚ → Except PyErr ℚ
  | [] => Except.error PyErr.valueError
  | x :: xs => Except.ok (xs.foldl max x)

/-- Python `min` over a list; `ValueError` on the empty list. -/
def pyMin : List ℚ → Except PyErr ℚ
  | [] => Except.error PyErr.valueError
  | x :: xs => Except.ok (xs.foldl min x)

/-- Python `round` to an integer: round half to even (banker's rounding). -/
def pyRoundInt (q : ℚ) : ℤ :=
  let f : ℤ := ⌊q⌋
  let r : ℚ := q - f
  if r < 1 / 2 then f
  else if 1 / 2 < r then f + 1
  else if f % 2 = 0 then f else f + 1

/-- Python `round(x, 2)`. -/
def pyRound2 (q : ℚ) : ℚ := (pyRoundInt (q * 100) : ℚ) / 100

/-- `get_width` (source lines 100-105): `round(max(xs) - min(xs), 2)`. -/
def get_width (xs : List ℚ) : Except PyErr ℚ :=
  match pyMax xs with
  | Except.error e => Except.error e
  | Except.ok M =>
    match pyMin xs with
    | Except.error e => Except.error e
    | Except.ok m => Except.ok (pyRound2 (M - m))

/-- `get_mean` (source lines 109-113): `round(sum(xs) / len(xs), 2)`;
`ZeroDivisionError` on the empty list. -/
def get_mean (xs : List ℚ) : Except PyErr ℚ :=
  if xs.length = 0 then Except.error PyErr.zeroDivisionError
  else Except.ok (pyRound2 (xs.sum / (xs.length : ℚ)))

/-! ### Output construction (source lines 117-147) -/

/-- `str.replace("•", repl)` on a character list: every occurrence of the
placeholder character is replaced. -/
def replaceBullet (s : List Char) (repl : List Char) : List Char :=
  match s with
  | [] => []
  | c :: rest =>
    if c = '•' then repl ++ replaceBullet rest repl
    else c :: replaceBullet rest repl

/-- `template.replace("•", repl)` on strings. -/
def pyReplace (template repl : String) : String :=
  String.mk (replaceBullet template.data repl.data)

/-- Models Python `str()` applied to the rounded mean.  After `round(_, 2)`
the value is a multiple of 1/100; Python prints it without trailing
fractional zeros but with at least one fractional digit
(`50.0`, `50.2`, `50.25`, `50.05`). -/
def pyStr (q : ℚ) : String :=
  let n : ℤ := q.num * ((100 : ℤ) / (q.den : ℤ))
  let a : Nat := n.natAbs
  let i : Nat := a / 100
  let f : Nat := a % 100
  let fs : String :=
    if f = 0 then "0"
    else if f % 10 = 0 then Nat.repr (f / 10)
    else if f < 10 then "0" ++ Nat.repr f
    else Nat.repr f
  (if n < 0 then "-" else "") ++ Nat.repr i ++ "." ++ fs

/-- The six lines written after each end-sentinel line (source lines
141-146), with the placeholder substituted by the mean's string form. -/
def injectedBlock (meanStr : String) : List String :=
  [PRINTOFFCOMMENT, COOLOFFNOZZLE, HOMEXY,
   pyReplace GOTOBACK meanStr, GOTOBED, pyReplace PUSHCOORDINATES meanStr]

/-- The `for line in lines` write loop of `create_output` (source lines
138-147): each end-sentinel line is written, then the six injected lines,
then — the final `file.write(line)` runs unconditionally — the sentinel
line once more; every other line is written once. -/
def writeLoop (lines : List String) (meanStr : String) : List String :=
  match lines with
  | [] => []
  | l :: ls =>
    (if l = PRINTEND then l :: (injectedBlock meanStr ++ [l]) else [l])
      ++ writeLoop ls meanStr

/-- `create_output` (source lines 117-147).  The output file is opened in
write mode (created/truncated) before any computation, so the first
component is `true` whenever the call runs; the second component is the
content written to the file when the call returns or raises; the third is
the exception, if any.  The write loop iterates the list mutated by
`get_x_coordinates` (Python aliasing). -/
def create_output (lines : List String) :
    Bool × List String × Option PyErr :=
  match get_x_coordinates lines with
  | Except.error e => (true, [], some e)
  | Except.ok (rest, xs) =>
    match get_width xs with
    | Except.error e => (true, [], some e)
    | Except.ok _ =>
      match get_mean xs with
      | Except.error e => (true, [], some e)
      | Except.ok mean => (true, writeLoop rest (pyStr mean), none)

/-- The spec's §8 scenario: start sentinel, one early coordinate line, three
layer changes, one late coordinate line, end sentinel. -/
def scenarioInput : List String :=
  ["PRINT_START\n", "G1 X10.00 Y0.00\n", ";LAYER_CHANGE\n", ";LAYER_CHANGE\n",
   ";LAYER_CHANGE\n", "G1 X50.00 Y0.00\n", "; EXECUTABLE_BLOCK_END\n"]

/-- The content `create_output` writes for `scenarioInput` (checked below). -/
def scenarioOutput : List String :=
  ["PRINT_START\n", "G1 X10.00 Y0.00\n", ";LAYER_CHANGE\n", ";LAYER_CHANGE\n",
   ";LAYER_CHANGE\n", "G1 X50.00 Y0.00\n", "; EXECUTABLE_BLOCK_END\n",
   "; PUSH PRINT OFF BED\n", "M109 S30; Waits for the nozzle to cool down\n",
   "G28 X Y; Homes the X and Y axis\n",
   "G1 X50.0 Y260; Goes to the back of the printer\n",
   "G28 Z; Goes to the bed for print removal\n", "G1 Y20; Push print off bed\n",
   "; EXECUTABLE_BLOCK_END\n"]

/-- An input whose only coordinate line sits at layer 1, below the
ignored-layer threshold: the eligible sample set is empty. -/
def earlySampleInput : List String :=
  ["PRINT_START\n", "G1 X10.00 Y0.00\n", "; EXECUTABLE_BLOCK_END\n"]

/-- The scenario input preceded by a header line (slicer preamble). -/
def headerInput : List String := "; header\n" :: scenarioInput

/-- An input whose eligible coordinate line lies after the second but before
the third layer-change marker. -/
def earlyThirdMarkerInput : List String :=
  ["PRINT_START\n", ";LAYER_CHANGE\n", ";LAYER_CHANGE\n", "G1 X50.25\n",
   ";LAYER_CHANGE\n", "; EXECUTABLE_BLOCK_END\n"]

/-- The region scanned by `scanLoop` annotated with the layer counter in
effect when each line's eligibility is tested (a layer-change line
increments the counter before that same line is tested). -/
def annotate : List String → Nat → List (String × Nat)
  | [], _ => []
  | l :: ls, k => (l, bumpLayer l k) :: annotate ls (bumpLayer l k)

/-- Sampling of a single layer-annotated line, as the spec's invariant
states it: a value is drawn only from a line that starts with the command
prefix and whose layer index exceeds the ignored-layer threshold. -/
def sampleFun (p : String × Nat) : Option ℚ :=
  if p.1.data.head? = some 'G' ∧ IGNOREDLAYERS < p.2 then searchX p.1.data
  else none

/-- One step of the sampling loop on an eligible command line: prepend the
parsed value of the line's first pattern occurrence, if any. -/
def sampleStep (line : String) (acc : Except PyErr (List ℚ)) :
    Except PyErr (List ℚ) :=
  match searchX line.data with
  | some v => acc.map (fun xs => v :: xs)
  | none => acc

/-- Spec side: the pattern `X<digits>.<digits>` matches a substring of `s`
starting at position `j`. -/
def matchBeginsAt (s : List Char) (j : Nat) : Prop :=
  ∃ a b post, s.drop j = 'X' :: (a ++ '.' :: b) ++ post ∧ a ≠ [] ∧
    (∀ c ∈ a, c.isDigit = true) ∧ b ≠ [] ∧ (∀ c ∈ b, c.isDigit = true)

/-- Spec side: some substring of `s` matches the pattern. -/
def hasXMatch (s : List Char) : Prop := ∃ j, matchBeginsAt s j

/-- What claim C10 states of the pattern search: either no substring of the
line matches `X<digits>.<digits>` and the search yields nothing, or the
search yields exactly the parsed value of the leftmost match, taken with a
maximal digit run (the character following the match is not a digit). -/
def searchXSpec (s : List Char) : Prop :=
  (searchX s = none ∧ ¬ hasXMatch s) ∨
  (∃ pre a b post, s = pre ++ 'X' :: (a ++ '.' :: b) ++ post ∧ a ≠ [] ∧
    (∀ c ∈ a, c.isDigit = true) ∧ b ≠ [] ∧ (∀ c ∈ b, c.isDigit = true) ∧
    (∀ c, post.head? = some c → c.isDigit = false) ∧
    (∀ j, j < pre.length → ¬ matchBeginsAt s j) ∧
    searchX s = some (decVal a b))

end PrintusEjectus

/-! ## Infrastructure for proofs -/

unseal Rat.add Rat.mul Rat.inv Rat.sub Rat.ofScientific

deriving instance DecidableEq for Except

namespace PrintusEjectus

/-! ### Region extraction lemmas -/

theorem dropToStart_eq_ok {lines rest : List String}
    (h : dropToStart lines = Except.ok rest) :
    ∃ pre, lines = pre ++ rest ∧ PRINTSTART ∉ pre ∧
      rest.head? = some PRINTSTART := by
  induction lines with
  | nil => exact absurd h (by simp [dropToStart])
  | cons l ls ih =>
    by_cases hl : l = PRINTSTART
    · subst hl
      rw [dropToStart, if_pos rfl] at h
      refine ⟨[], ?_, by simp, ?_⟩
      · simpa using Except.ok.inj h
      · rw [← Except.ok.inj h]; rfl
    · rw [dropToStart, if_neg hl] at h
      obtain ⟨pre, hpre, hmem, hhd⟩ := ih h
      refine ⟨l :: pre, by simp [hpre], ?_, hhd⟩
      simp only [List.mem_cons, not_or]
      exact ⟨fun hc => hl hc.symm, hmem⟩

theorem dropToStart_not_found {lines : List String} (h : PRINTSTART ∉ lines) :
    dropToStart lines = Except.error PyErr.indexError := by
  induction lines with
  | nil => rfl
  | cons l ls ih =>
    rw [List.mem_cons, not_or] at h
    rw [dropToStart, if_neg (fun hc => h.1 hc.symm)]
    exact ih h.2

/-! ### Injected block lemmas -/

/-- `GOTOBACK` contains exactly one placeholder; substitution splices the
mean's string form between the `X` token and the rest of the command. -/
theorem pyReplace_gotoback (m : String) :
    pyReplace GOTOBACK m
      = "G1 X" ++ m ++ " Y260; Goes to the back of the printer\n" := rfl

/-- `PUSHCOORDINATES` contains no placeholder character, so the
substitution performed on it by `create_output` is the identity. -/
theorem pyReplace_pushcoordinates (m : String) :
    pyReplace PUSHCOORDINATES m = PUSHCOORDINATES := rfl

theorem not_printend_mem_injectedBlock (m : String) :
    PRINTEND ∉ injectedBlock m := by
  intro h
  have hG : (pyReplace GOTOBACK m).data.head? = some 'G' := rfl
  simp only [injectedBlock, List.mem_cons, List.mem_singleton] at h
  rcases h with h | h | h | h | h | h
  · exact absurd h (by decide)
  · exact absurd h (by decide)
  · exact absurd h (by decide)
  · have hE : PRINTEND.data.head? = some ';' := rfl
    rw [h, hG] at hE
    exact absurd hE (by decide)
  · exact absurd h (by decide)
  · rw [pyReplace_pushcoordinates] at h
    exact absurd h (by decide)

/-! ### Write loop lemmas -/

theorem writeLoop_sublist (rest : List String) (m : String) :
    rest.Sublist (writeLoop rest m) := by
  induction rest with
  | nil => simp [writeLoop]
  | cons l ls ih =>
    rw [writeLoop]
    by_cases hl : l = PRINTEND
    · rw [if_pos hl, List.cons_append]
      exact List.Sublist.cons₂ l (ih.trans (List.sublist_append_right _ _))
    · rw [if_neg hl, List.singleton_append]
      exact List.Sublist.cons₂ l ih

theorem mem_writeLoop {rest : List String} {m : String} {x : String}
    (h : x ∈ writeLoop rest m) : x ∈ rest ∨ x ∈ injectedBlock m := by
  induction rest with
  | nil => simp [writeLoop] at h
  | cons l ls ih =>
    rw [writeLoop] at h
    by_cases hl : l = PRINTEND
    · rw [if_pos hl, List.cons_append] at h
      rcases List.mem_cons.mp h with h | h
      · subst h; exact Or.inl (List.mem_cons_self _ _)
      · rcases List.mem_append.mp h with h | h
        · rcases List.mem_append.mp h with h | h
          · exact Or.inr h
          · have hx : x = l := by simpa using h
            subst hx; exact Or.inl (List.mem_cons_self _ _)
        · rcases ih h with h2 | h2
          · exact Or.inl (List.mem_cons_of_mem l h2)
          · exact Or.inr h2
    · rw [if_neg hl, List.singleton_append] at h
      rcases List.mem_cons.mp h with h | h
      · subst h; exact Or.inl (List.mem_cons_self _ _)
      · rcases ih h with h2 | h2
        · exact Or.inl (List.mem_cons_of_mem l h2)
        · exact Or.inr h2

theorem injectedBlock_length (m : String) : (injectedBlock m).length = 6 :=
  rfl

theorem writeLoop_length (rest : List String) (m : String) :
    (writeLoop rest m).length = rest.length + 7 * rest.count PRINTEND := by
  induction rest with
  | nil => simp [writeLoop]
  | cons l ls ih =>
    rw [writeLoop]
    by_cases hl : l = PRINTEND
    · subst hl
      rw [if_pos rfl, List.cons_append, List.length_cons, List.length_append,
        List.length_append, injectedBlock_length, List.length_singleton, ih,
        List.count_cons_self, List.length_cons]
      omega
    · rw [if_neg hl, List.singleton_append, List.length_cons, ih,
        List.count_cons_of_ne (fun hc => hl hc.symm), List.length_cons]
      omega

theorem writeLoop_count (rest : List String) (m : String) :
    (writeLoop rest m).count PRINTEND = 2 * rest.count PRINTEND := by
  induction rest with
  | nil => simp [writeLoop]
  | cons l ls ih =>
    rw [writeLoop]
    by_cases hl : l = PRINTEND
    · subst hl
      rw [if_pos rfl]
      simp only [List.cons_append, List.count_cons_self, List.count_append,
        List.count_nil, ih,
        List.count_eq_zero.mpr (not_printend_mem_injectedBlock m)]
      omega
    · rw [if_neg hl, List.singleton_append,
        List.count_cons_of_ne (fun hc => hl hc.symm), ih,
        List.count_cons_of_ne (fun hc => hl hc.symm)]

theorem writeLoop_pattern_infix {rest : List String} (m : String)
    (h : 0 < rest.count PRINTEND) :
    ∃ s t, s ++ (PRINTEND :: (injectedBlock m ++ [PRINTEND])) ++ t
        = writeLoop rest m := by
  induction rest with
  | nil => simp at h
  | cons l ls ih =>
    by_cases hl : l = PRINTEND
    · subst hl
      exact ⟨[], writeLoop ls m, by rw [writeLoop, if_pos rfl]; simp⟩
    · rw [List.count_cons_of_ne (fun hc => hl hc.symm)] at h
      obtain ⟨s, t, hst⟩ := ih h
      refine ⟨l :: s, t, ?_⟩
      rw [writeLoop, if_neg hl, List.singleton_append]
      simpa using hst

/-! ### Unfolding a successful `create_output` run -/

theorem get_x_coordinates_eq_ok {lines rest : List String} {xs : List ℚ}
    (h : get_x_coordinates lines = Except.ok (rest, xs)) :
    dropToStart lines = Except.ok rest ∧ scanLoop rest 1 = Except.ok xs := by
  unfold get_x_coordinates at h
  cases hd : dropToStart lines with
  | error e => rw [hd] at h; exact absurd h (by simp)
  | ok r =>
    rw [hd] at h
    simp only at h
    cases hs : scanLoop r 1 with
    | error e => rw [hs] at h; exact absurd h (by simp [Except.map])
    | ok ys =>
      rw [hs] at h
      simp only [Except.map, Except.ok.injEq, Prod.mk.injEq] at h
      rw [← h.1, ← h.2]
      exact ⟨rfl, hs⟩

theorem create_output_eq_ok {lines out : List String}
    (h : create_output lines = (true, out, none)) :
    ∃ rest xs mean, dropToStart lines = Except.ok rest ∧
      scanLoop rest 1 = Except.ok xs ∧ get_mean xs = Except.ok mean ∧
      out = writeLoop rest (pyStr mean) := by
  unfold create_output at h
  cases hgx : get_x_coordinates lines with
  | error e => rw [hgx] at h; exact absurd h (by simp)
  | ok p =>
    obtain ⟨rest, xs⟩ := p
    rw [hgx] at h
    simp only at h
    obtain ⟨hd, hs⟩ := get_x_coordinates_eq_ok hgx
    cases hw : get_width xs with
    | error e => rw [hw] at h; exact absurd h (by simp)
    | ok w =>
      rw [hw] at h
      simp only at h
      cases hm : get_mean xs with
      | error e => rw [hm] at h; exact absurd h (by simp)
      | ok mean =>
        rw [hm] at h
        simp only [Prod.mk.injEq] at h
        exact ⟨rest, xs, mean, hd, hs, hm, h.2.1.symm⟩

/-! ### Statistics lemmas -/

theorem foldl_max_mem (a : ℚ) (xs : List ℚ) : xs.foldl max a ∈ a :: xs := by
  induction xs generalizing a with
  | nil => simp
  | cons x xs ih =>
    rw [List.foldl_cons]
    rcases List.mem_cons.mp (ih (max a x)) with h | h
    · rcases max_choice a x with hm | hm <;> rw [h, hm]
      · exact List.mem_cons_self _ _
      · exact List.mem_cons_of_mem _ (List.mem_cons_self _ _)
    · exact List.mem_cons_of_mem _ (List.mem_cons_of_mem _ h)

theorem le_foldl_max (a : ℚ) (xs : List ℚ) :
    ∀ y ∈ a :: xs, y ≤ xs.foldl max a := by
  induction xs generalizing a with
  | nil => intro y hy; rw [List.mem_singleton] at hy; simp [hy]
  | cons x xs ih =>
    intro y hy
    rw [List.foldl_cons]
    rcases List.mem_cons.mp hy with h | h
    · subst h
      exact le_trans (le_max_left y x) (ih (max y x) _ (List.mem_cons_self _ _))
    · rcases List.mem_cons.mp h with h2 | h2
      · subst h2
        exact le_trans (le_max_right a y)
          (ih (max a y) _ (List.mem_cons_self _ _))
      · exact ih (max a x) y (List.mem_cons_of_mem _ h2)

theorem foldl_min_mem (a : ℚ) (xs : List ℚ) : xs.foldl min a ∈ a :: xs := by
  induction xs generalizing a with
  | nil => simp
  | cons x xs ih =>
    rw [List.foldl_cons]
    rcases List.mem_cons.mp (ih (min a x)) with h | h
    · rcases min_choice a x with hm | hm <;> rw [h, hm]
      · exact List.mem_cons_self _ _
      · exact List.mem_cons_of_mem _ (List.mem_cons_self _ _)
    · exact List.mem_cons_of_mem _ (List.mem_cons_of_mem _ h)

theorem foldl_min_le (a : ℚ) (xs : List ℚ) :
    ∀ y ∈ a :: xs, xs.foldl min a ≤ y := by
  induction xs generalizing a with
  | nil => intro y hy; rw [List.mem_singleton] at hy; simp [hy]
  | cons x xs ih =>
    intro y hy
    rw [List.foldl_cons]
    rcases List.mem_cons.mp hy with h | h
    · subst h
      exact le_trans (ih (min y x) _ (List.mem_cons_self _ _)) (min_le_left y x)
    · rcases List.mem_cons.mp h with h2 | h2
      · subst h2
        exact le_trans (ih (min a y) _ (List.mem_cons_self _ _))
          (min_le_right a y)
      · exact ih (min a x) y (List.mem_cons_of_mem _ h2)

/-- `max()` of a nonempty list returns an element that bounds the list. -/
theorem pyMax_eq_ok {xs : List ℚ} (h : xs ≠ []) :
    ∃ M, pyMax xs = Except.ok M ∧ M ∈ xs ∧ ∀ y ∈ xs, y ≤ M := by
  cases xs with
  | nil => exact absurd rfl h
  | cons x l => exact ⟨l.foldl max x, rfl, foldl_max_mem x l, le_foldl_max x l⟩

/-- `min()` of a nonempty list returns an element below the list. -/
theorem pyMin_eq_ok {xs : List ℚ} (h : xs ≠ []) :
    ∃ m, pyMin xs = Except.ok m ∧ m ∈ xs ∧ ∀ y ∈ xs, m ≤ y := by
  cases xs with
  | nil => exact absurd rfl h
  | cons x l => exact ⟨l.foldl min x, rfl, foldl_min_mem x l, foldl_min_le x l⟩

theorem pyMax_perm {xs ys : List ℚ} (hp : xs.Perm ys) : pyMax xs = pyMax ys := by
  by_cases hx : xs = []
  · subst hx
    rw [hp.symm.eq_nil]
  · have hy : ys ≠ [] := by intro hc; subst hc; exact hx hp.eq_nil
    obtain ⟨M, hM, hMmem, hMub⟩ := pyMax_eq_ok hx
    obtain ⟨N, hN, hNmem, hNub⟩ := pyMax_eq_ok hy
    have hMN : M = N :=
      le_antisymm (hNub M (hp.subset hMmem)) (hMub N (hp.symm.subset hNmem))
    rw [hM, hN, hMN]

theorem pyMin_perm {xs ys : List ℚ} (hp : xs.Perm ys) : pyMin xs = pyMin ys := by
  by_cases hx : xs = []
  · subst hx
    rw [hp.symm.eq_nil]
  · have hy : ys ≠ [] := by intro hc; subst hc; exact hx hp.eq_nil
    obtain ⟨M, hM, hMmem, hMlb⟩ := pyMin_eq_ok hx
    obtain ⟨N, hN, hNmem, hNlb⟩ := pyMin_eq_ok hy
    have hMN : M = N :=
      le_antisymm (hMlb N (hp.symm.subset hNmem)) (hNlb M (hp.subset hMmem))
    rw [hM, hN, hMN]

/-! ### Layer filtering: the scan equals sampling over annotated lines -/

theorem scanLoop_eq_filterMap {rest : List String} {k : Nat} {xs : List ℚ}
    (h : scanLoop rest k = Except.ok xs) :
    xs = (annotate (rest.takeWhile (fun l => l ≠ PRINTEND)) k).filterMap
      sampleFun := by
  induction rest generalizing k xs with
  | nil =>
    simp only [scanLoop, Except.ok.injEq] at h
    subst h
    rfl
  | cons l ls ih =>
    rw [scanLoop] at h
    by_cases he : l = PRINTEND
    · rw [if_pos he] at h
      rw [List.takeWhile_cons_of_neg (by simp [he])]
      simp only [annotate, List.filterMap_nil]
      exact (Except.ok.inj h).symm
    · rw [if_neg he] at h
      rw [List.takeWhile_cons_of_pos (by simp [he]), annotate,
        List.filterMap_cons]
      cases hd : l.data with
      | nil =>
        rw [hd] at h
        dsimp only at h
        exact absurd h (by simp)
      | cons c t =>
        rw [hd] at h
        dsimp only at h
        by_cases hg : c = 'G' ∧ IGNOREDLAYERS < bumpLayer l k
        · have hsf : sampleFun (l, bumpLayer l k) = searchX l.data := by
            unfold sampleFun
            rw [if_pos ⟨by rw [hd, List.head?_cons, hg.1], hg.2⟩]
          rw [if_pos hg] at h
          cases hsx : searchX (c :: t) with
          | some v =>
            rw [hsx] at h
            dsimp only at h
            cases hrec : scanLoop ls (bumpLayer l k) with
            | error e => rw [hrec] at h; exact absurd h (by simp [Except.map])
            | ok ys =>
              rw [hrec] at h
              simp only [Except.map, Except.ok.injEq] at h
              simp only [hsf, hd, hsx]
              rw [← h, ih hrec]
          | none =>
            rw [hsx] at h
            dsimp only at h
            simp only [hsf, hd, hsx]
            exact ih h
        · have hsf : sampleFun (l, bumpLayer l k) = none := by
            unfold sampleFun
            rw [if_neg]
            rintro ⟨h1, h2⟩
            rw [hd, List.head?_cons, Option.some.injEq] at h1
            exact hg ⟨h1, h2⟩
          rw [if_neg hg] at h
          simp only [hsf]
          exact ih h

/-! ### The regex search against its leftmost-match characterization -/

theorem takeWhile_digit_append {a : List Char}
    (h : ∀ c ∈ a, c.isDigit = true) (y : List Char) :
    (a ++ y).takeWhile Char.isDigit = a ++ y.takeWhile Char.isDigit := by
  induction a with
  | nil => simp
  | cons c t ih =>
    rw [List.cons_append,
      List.takeWhile_cons_of_pos (h c (List.mem_cons_self _ _)),
      ih (fun d hd => h d (List.mem_cons_of_mem _ hd)), List.cons_append]

theorem dropWhile_digit_append {a : List Char}
    (h : ∀ c ∈ a, c.isDigit = true) (y : List Char) :
    (a ++ y).dropWhile Char.isDigit = y.dropWhile Char.isDigit := by
  induction a with
  | nil => simp
  | cons c t ih =>
    rw [List.cons_append,
      List.dropWhile_cons_of_pos (h c (List.mem_cons_self _ _)),
      ih (fun d hd => h d (List.mem_cons_of_mem _ hd))]

theorem head?_dropWhile_digit (l : List Char) :
    ∀ c, (l.dropWhile Char.isDigit).head? = some c → c.isDigit = false := by
  induction l with
  | nil => intro c hc; exact absurd hc (by simp)
  | cons x t ih =>
    intro c hc
    by_cases hx : Char.isDigit x
    · rw [List.dropWhile_cons_of_pos hx] at hc
      exact ih c hc
    · rw [List.dropWhile_cons_of_neg hx, List.head?_cons,
        Option.some.injEq] at hc
      rw [← hc]
      exact Bool.eq_false_iff.mpr hx

theorem tryX_eq_some {s a b r : List Char} (h : tryX s = some (a, b, r)) :
    s = 'X' :: (a ++ '.' :: b) ++ r ∧ a ≠ [] ∧ (∀ c ∈ a, c.isDigit = true) ∧
      b ≠ [] ∧ (∀ c ∈ b, c.isDigit = true) ∧
      (∀ c, r.head? = some c → c.isDigit = false) := by
  cases s with
  | nil => exact absurd h (by simp [tryX])
  | cons c t =>
    rw [tryX] at h
    by_cases hc : c = 'X'
    · rw [if_pos hc] at h
      by_cases h1 : t.takeWhile Char.isDigit = []
      · rw [if_pos h1] at h; exact absurd h (by simp)
      · rw [if_neg h1] at h
        cases hdw : t.dropWhile Char.isDigit with
        | nil => rw [hdw] at h; exact absurd h (by simp)
        | cons d r2 =>
          rw [hdw] at h
          dsimp only at h
          by_cases hd : d = '.'
          · rw [if_pos hd] at h
            by_cases h2 : r2.takeWhile Char.isDigit = []
            · rw [if_pos h2] at h; exact absurd h (by simp)
            · rw [if_neg h2] at h
              simp only [Option.some.injEq, Prod.mk.injEq] at h
              obtain ⟨ha, hb, hr⟩ := h
              subst hc hd
              refine ⟨?_, ?_, ?_, ?_, ?_, ?_⟩
              · rw [List.cons_append]
                suffices hsuf : t = (a ++ '.' :: b) ++ r by rw [hsuf]
                rw [← ha, ← hb, ← hr]
                conv_lhs => rw [← List.takeWhile_append_dropWhile
                  Char.isDigit t, hdw,
                  ← List.takeWhile_append_dropWhile Char.isDigit r2]
                simp [List.append_assoc]
              · rw [← ha]; exact h1
              · rw [← ha]; exact fun d hd => List.mem_takeWhile_imp hd
              · rw [← hb]; exact h2
              · rw [← hb]; exact fun d hd => List.mem_takeWhile_imp hd
              · rw [← hr]; exact head?_dropWhile_digit r2
          · rw [if_neg hd] at h; exact absurd h (by simp)
    · rw [if_neg hc] at h; exact absurd h (by simp)

theorem tryX_ne_none {a b post : List Char} (ha : a ≠ [])
    (hda : ∀ c ∈ a, c.isDigit = true) (hb : b ≠ [])
    (hdb : ∀ c ∈ b, c.isDigit = true) :
    tryX ('X' :: (a ++ '.' :: b) ++ post) ≠ none := by
  intro h
  have hrw : (a ++ '.' :: b) ++ post = a ++ '.' :: (b ++ post) := by
    simp [List.append_assoc]
  rw [List.cons_append, tryX, if_pos rfl, hrw] at h
  rw [takeWhile_digit_append hda,
    List.takeWhile_cons_of_neg (by decide : ¬(Char.isDigit '.' = true)),
    List.append_nil] at h
  rw [if_neg ha] at h
  rw [dropWhile_digit_append hda,
    List.dropWhile_cons_of_neg (by decide : ¬(Char.isDigit '.' = true))] at h
  dsimp only at h
  rw [if_pos rfl] at h
  rw [takeWhile_digit_append hdb] at h
  rw [if_neg (by simp [hb])] at h
  exact absurd h (by simp)

theorem searchX_meets_spec (s : List Char) : searchXSpec s := by
  induction s with
  | nil =>
    left
    refine ⟨rfl, ?_⟩
    rintro ⟨j, a, b, post, heq, -, -, -, -⟩
    rw [List.drop_nil] at heq
    exact absurd heq (by simp)
  | cons c t ih =>
    cases htry : tryX (c :: t) with
    | some trip =>
      obtain ⟨a, b, r⟩ := trip
      obtain ⟨heq, ha, hda, hb, hdb, hhead⟩ := tryX_eq_some htry
      right
      refine ⟨[], a, b, r, by simpa using heq, ha, hda, hb, hdb, hhead,
        ?_, ?_⟩
      · intro j hj; exact absurd hj (Nat.not_lt_zero j)
      · rw [searchX, htry]
    | none =>
      have h0 : ¬ matchBeginsAt (c :: t) 0 := by
        rintro ⟨a, b, post, heq, ha, hda, hb, hdb⟩
        rw [List.drop_zero] at heq
        exact tryX_ne_none ha hda hb hdb (heq ▸ htry)
      have hshift : ∀ j, matchBeginsAt (c :: t) (j + 1) ↔ matchBeginsAt t j := by
        intro j
        unfold matchBeginsAt
        rw [List.drop_succ_cons]
      have hsx : searchX (c :: t) = searchX t := by rw [searchX, htry]
      rcases ih with ⟨hnone, hnomatch⟩ |
        ⟨pre, a, b, post, heq, ha, hda, hb, hdb, hhead, hleft, hval⟩
      · left
        refine ⟨by rw [hsx, hnone], ?_⟩
        rintro ⟨j, hj⟩
        cases j with
        | zero => exact h0 hj
        | succ j => exact hnomatch ⟨j, (hshift j).mp hj⟩
      · right
        refine ⟨c :: pre, a, b, post, by simp [heq], ha, hda, hb, hdb, hhead,
          ?_, by rw [hsx, hval]⟩
        intro j hj
        cases j with
        | zero => intro hm; exact h0 hm
        | succ j =>
          rw [List.length_cons, Nat.succ_lt_succ_iff] at hj
          rw [hshift j]
          exact hleft j hj

theorem scanLoop_cons_eligible {line : String} {rest : List String} {k : Nat}
    (hG : line.data.head? = some 'G') (hk : IGNOREDLAYERS < k) :
    scanLoop (line :: rest) k = sampleStep line (scanLoop rest k) := by
  have hne : line ≠ PRINTEND := by
    intro hE; rw [hE] at hG; exact absurd hG (by decide)
  have hnl : line ≠ LAYERCHANGE := by
    intro hE; rw [hE] at hG; exact absurd hG (by decide)
  have hbump : bumpLayer line k = k := by rw [bumpLayer, if_neg hnl]
  cases hd : line.data with
  | nil => rw [hd] at hG; exact absurd hG (by simp)
  | cons c t =>
    have hc : c = 'G' := by
      rw [hd, List.head?_cons] at hG
      exact Option.some.inj hG
    rw [scanLoop, if_neg hne, hd]
    dsimp only
    rw [if_pos ⟨hc, by rw [hbump]; exact hk⟩, hbump]
    unfold sampleStep
    rw [hd]

/-! ## Claims -/

/-- Claim C1, counterexample: `headerInput` contains the start sentinel and
an extra header line before it; `create_output` succeeds, yet the header
line — which is not one of the six injected lines — is absent from the
output, so the output is not the input plus inserted blocks. -/
theorem claim1_counterexample :
    create_output headerInput = (true, scenarioOutput, none) ∧
      "; header\n" ∈ headerInput ∧ PRINTSTART ∈ headerInput ∧
      "; header\n" ∉ scenarioOutput := by decide

/-- Claim C1 (amended): on a successful run, the lines strictly before the
first start sentinel are dropped; every input line from the first start
sentinel onward appears byte-identical in the output in its original
relative order (the suffix is a sublist of the output), and every output
line is either one of those suffix lines or one of the six injected
lines. -/
theorem claim1_roundtrip_amended (lines out : List String)
    (h : create_output lines = (true, out, none)) :
    ∃ pre rest m, lines = pre ++ rest ∧ PRINTSTART ∉ pre ∧
      rest.head? = some PRINTSTART ∧ rest.Sublist out ∧
      ∀ x ∈ out, x ∈ rest ∨ x ∈ injectedBlock m := by
  obtain ⟨rest, xs, mean, hd, hs, hm, hout⟩ := create_output_eq_ok h
  obtain ⟨pre, hpre, hnotmem, hhd⟩ := dropToStart_eq_ok hd
  subst hout
  exact ⟨pre, rest, pyStr mean, hpre, hnotmem, hhd,
    writeLoop_sublist rest (pyStr mean), fun x hx => mem_writeLoop hx⟩

/-- Claim C1 witness: the amended round-trip property evaluated on the
header-prefixed scenario input. -/
theorem claim1_roundtrip_amended_witness :
    create_output headerInput = (true, scenarioOutput, none) ∧
      ∃ pre rest m, headerInput = pre ++ rest ∧ PRINTSTART ∉ pre ∧
        rest.head? = some PRINTSTART ∧ rest.Sublist scenarioOutput ∧
        ∀ x ∈ scenarioOutput, x ∈ rest ∨ x ∈ injectedBlock m :=
  ⟨by decide, claim1_roundtrip_amended headerInput scenarioOutput (by decide)⟩

/-- Claim C2, counterexample: the well-formed scenario input (start
sentinel, end sentinel, one eligible coordinate line) has 7 lines and one
end sentinel, but the output has 14 lines, not 7 + 6 × 1 = 13 — each end
sentinel inserts seven lines (the six injected ones plus a duplicate of the
sentinel line). -/
theorem claim2_counterexample :
    create_output scenarioInput = (true, scenarioOutput, none) ∧
      PRINTSTART ∈ scenarioInput ∧ PRINTEND ∈ scenarioInput ∧
      scenarioInput.length = 7 ∧ scenarioInput.count PRINTEND = 1 ∧
      scenarioOutput.length = 14 ∧
      scenarioOutput.length ≠
        scenarioInput.length + 6 * scenarioInput.count PRINTEND := by decide

/-- Claim C2 (amended): on a successful run the number of output lines
equals the number of input lines from the first start sentinel onward plus
7 times the number of end-sentinel occurrences in that suffix. -/
theorem claim2_output_length_amended (lines out rest : List String)
    (h : create_output lines = (true, out, none))
    (hr : dropToStart lines = Except.ok rest) :
    out.length = rest.length + 7 * rest.count PRINTEND := by
  obtain ⟨rest2, xs, mean, hd, hs, hm, hout⟩ := create_output_eq_ok h
  rw [hr] at hd
  obtain rfl : rest = rest2 := Except.ok.inj hd
  rw [hout, writeLoop_length]

/-- Claim C2 witness: the amended length law evaluated on the scenario
input. -/
theorem claim2_output_length_amended_witness :
    create_output scenarioInput = (true, scenarioOutput, none) ∧
      dropToStart scenarioInput = Except.ok scenarioInput ∧
      scenarioOutput.length =
        scenarioInput.length + 7 * scenarioInput.count PRINTEND :=
  ⟨by decide, by decide,
    claim2_output_length_amended scenarioInput scenarioOutput scenarioInput
      (by decide) (by decide)⟩

/-- Claim C3, counterexample: on the scenario input the computed mean is 50
and its string form is `50.0`; the move-to-standoff line (output index 10)
contains that numeric string, but the final push command (output index 12)
is the constant `G1 Y20; Push print off bed` and does not contain it — the
two lines do not carry the same numeric string and the push command's Y is
not parameterized by the mean. -/
theorem claim3_counterexample :
    create_output scenarioInput = (true, scenarioOutput, none) ∧
      get_mean [50] = Except.ok 50 ∧ pyStr 50 = "50.0" ∧
      scenarioOutput.getD 10 ""
        = "G1 X50.0 Y260; Goes to the back of the printer\n" ∧
      scenarioOutput.getD 12 "" = "G1 Y20; Push print off bed\n" ∧
      "50.0".data.IsInfix (scenarioOutput.getD 10 "").data ∧
      ¬ "50.0".data.IsInfix (scenarioOutput.getD 12 "").data := by decide

/-- Claim C3 (amended): exactly one injected line is parameterized — the
placeholder substitution splices the mean's string form into the
move-to-standoff command, while the final push command template contains no
placeholder, so the substitution on it is the identity and its Y value is
the constant 20. -/
theorem claim3_single_parameterized_amended (m : String) :
    injectedBlock m = [PRINTOFFCOMMENT, COOLOFFNOZZLE, HOMEXY,
      "G1 X" ++ m ++ " Y260; Goes to the back of the printer\n", GOTOBED,
      PUSHCOORDINATES] := by
  rw [injectedBlock, pyReplace_gotoback, pyReplace_pushcoordinates]

/-- Claim C4: with an empty eligible sample set the run fails with the
`ValueError` raised by `max()` on an empty sequence — not an explicit
"no samples" error — and the output file has already been opened in write
mode (first component `true`), so an empty output file is created. -/
theorem claim4_empty_samples_behavior :
    get_x_coordinates earlySampleInput
        = Except.ok (earlySampleInput, ([] : List ℚ)) ∧
      get_width [] = Except.error PyErr.valueError ∧
      create_output earlySampleInput = (true, [], some PyErr.valueError) := by
  decide

/-- Claim C5, counterexample: in `earlyThirdMarkerInput` the coordinate
line sits at index 3, before the third layer-change marker (index 4): only
two markers precede it, yet its value 50.25 is sampled, because two markers
already raise the layer counter to 3 > IGNOREDLAYERS = 2. -/
theorem claim5_counterexample :
    get_x_coordinates earlyThirdMarkerInput
        = Except.ok (earlyThirdMarkerInput, [201 / 4]) ∧
      earlyThirdMarkerInput.getD 3 "" = "G1 X50.25\n" ∧
      (earlyThirdMarkerInput.take 4).count LAYERCHANGE = 2 ∧
      earlyThirdMarkerInput.getD 4 "" = LAYERCHANGE ∧
      IGNOREDLAYERS = 2 := by decide

/-- Claim C5 (amended): the samples are drawn exactly from the region
between the first start sentinel and the end sentinel, each line annotated
with the layer counter in effect when it is tested (1 plus the number of
preceding layer-change markers), and a line whose layer index is at most
IGNOREDLAYERS — equivalently, one occurring before the IGNOREDLAYERS-th
layer-change marker — never contributes a sample. -/
theorem claim5_layer_filter_amended (lines rest : List String) (xs : List ℚ)
    (h : get_x_coordinates lines = Except.ok (rest, xs)) :
    rest.head? = some PRINTSTART ∧
      xs = (annotate (rest.takeWhile (fun l => l ≠ PRINTEND)) 1).filterMap
        sampleFun ∧
      ∀ p ∈ annotate (rest.takeWhile (fun l => l ≠ PRINTEND)) 1,
        p.2 ≤ IGNOREDLAYERS → sampleFun p = none := by
  obtain ⟨hd, hs⟩ := get_x_coordinates_eq_ok h
  obtain ⟨pre, hpre, hnotmem, hhd⟩ := dropToStart_eq_ok hd
  refine ⟨hhd, scanLoop_eq_filterMap hs, ?_⟩
  intro p hp hle
  unfold sampleFun
  rw [if_neg]
  rintro ⟨-, h2⟩
  omega

/-- Claim C5 witness: the amended layer-filter invariant evaluated on
`earlyThirdMarkerInput`. -/
theorem claim5_layer_filter_amended_witness :
    get_x_coordinates earlyThirdMarkerInput
        = Except.ok (earlyThirdMarkerInput, [201 / 4]) ∧
      (earlyThirdMarkerInput.head? = some PRINTSTART ∧
        [(201 / 4 : ℚ)] =
          (annotate (earlyThirdMarkerInput.takeWhile
            (fun l => l ≠ PRINTEND)) 1).filterMap sampleFun ∧
        ∀ p ∈ annotate (earlyThirdMarkerInput.takeWhile
            (fun l => l ≠ PRINTEND)) 1,
          p.2 ≤ IGNOREDLAYERS → sampleFun p = none) :=
  ⟨by decide,
    claim5_layer_filter_amended earlyThirdMarkerInput earlyThirdMarkerInput
      [201 / 4] (by decide)⟩

/-- Claim C6: on a nonempty sample list, `get_width` returns exactly
round(maximum − minimum, 2) and `get_mean` returns exactly
round(sum / count, 2), where maximum and minimum are the largest and
smallest sampled values; both are pure functions of the list. -/
theorem claim6_statistics_formulas (xs : List ℚ) (h : xs ≠ []) :
    ∃ M m, M ∈ xs ∧ (∀ y ∈ xs, y ≤ M) ∧ m ∈ xs ∧ (∀ y ∈ xs, m ≤ y) ∧
      get_width xs = Except.ok (pyRound2 (M - m)) ∧
      get_mean xs = Except.ok (pyRound2 (xs.sum / (xs.length : ℚ))) := by
  obtain ⟨M, hMeq, hMmem, hMub⟩ := pyMax_eq_ok h
  obtain ⟨m, hmeq, hmmem, hmlb⟩ := pyMin_eq_ok h
  refine ⟨M, m, hMmem, hMub, hmmem, hmlb, ?_, ?_⟩
  · rw [get_width, hMeq, hmeq]
  · rw [get_mean, if_neg (by simpa using h)]

/-- Claim C6 witness: the statistics formulas evaluated on the two-element
sample list `[1, 3]`. -/
theorem claim6_statistics_formulas_witness :
    ([1, 3] : List ℚ) ≠ [] ∧
      ∃ M m, M ∈ ([1, 3] : List ℚ) ∧ (∀ y ∈ ([1, 3] : List ℚ), y ≤ M) ∧
        m ∈ ([1, 3] : List ℚ) ∧ (∀ y ∈ ([1, 3] : List ℚ), m ≤ y) ∧
        get_width [1, 3] = Except.ok (pyRound2 (M - m)) ∧
        get_mean [1, 3] =
          Except.ok (pyRound2 (([1, 3] : List ℚ).sum / 2)) :=
  ⟨by decide, claim6_statistics_formulas [1, 3] (by decide)⟩

/-- Claim C7: the statistics are invariant under permutation of the sample
list (and re-running them on the same list trivially yields the same
result, the embedding being a pure function). -/
theorem claim7_statistics_permutation_invariant (xs ys : List ℚ)
    (hp : xs.Perm ys) :
    get_width xs = get_width ys ∧ get_mean xs = get_mean ys := by
  constructor
  · rw [get_width, get_width, pyMax_perm hp, pyMin_perm hp]
  · rw [get_mean, get_mean, hp.length_eq, hp.sum_eq]

/-- Claim C7 witness: permutation invariance evaluated on `[1, 2]` and
`[2, 1]`. -/
theorem claim7_statistics_permutation_invariant_witness :
    ([1, 2] : List ℚ).Perm [2, 1] ∧
      (get_width [1, 2] = get_width [2, 1] ∧
        get_mean [1, 2] = get_mean [2, 1]) :=
  ⟨by decide, claim7_statistics_permutation_invariant [1, 2] [2, 1]
    (by decide)⟩

/-- Claim C8: when no line equals the start sentinel, the popping loop
exhausts the list and the next `lines[0]` raises `IndexError`: region
extraction terminates with an explicit error (no infinite loop, no silent
exhaustion), and a run of `create_output` stops with that error after
writing nothing. -/
theorem claim8_missing_start_sentinel_fails (lines : List String)
    (h : PRINTSTART ∉ lines) :
    get_x_coordinates lines = Except.error PyErr.indexError ∧
      create_output lines = (true, [], some PyErr.indexError) := by
  have hgx : get_x_coordinates lines = Except.error PyErr.indexError := by
    rw [get_x_coordinates, dropToStart_not_found h]
  refine ⟨hgx, ?_⟩
  rw [create_output, hgx]

/-- Claim C8 witness: the missing-start-sentinel failure evaluated on a
one-line input without the sentinel. -/
theorem claim8_missing_start_sentinel_fails_witness :
    PRINTSTART ∉ ["; no start\n"] ∧
      (get_x_coordinates ["; no start\n"] = Except.error PyErr.indexError ∧
        create_output ["; no start\n"]
          = (true, [], some PyErr.indexError)) :=
  ⟨by decide, claim8_missing_start_sentinel_fails ["; no start\n"]
    (by decide)⟩

/-- Claim C9: each occurrence of the end-sentinel line in the scanned
suffix appears twice in the output — the write loop writes it, then the six
injected lines, then writes it again — so the output's count of the
sentinel is twice the suffix's, and the eight-line pattern
sentinel-block-sentinel occurs contiguously in the output. -/
theorem claim9_end_sentinel_duplicated (lines out rest : List String)
    (h : create_output lines = (true, out, none))
    (hr : dropToStart lines = Except.ok rest) :
    out.count PRINTEND = 2 * rest.count PRINTEND ∧
      (0 < rest.count PRINTEND → ∃ m s t,
        s ++ (PRINTEND :: (injectedBlock m ++ [PRINTEND])) ++ t = out) := by
  obtain ⟨rest2, xs, mean, hd, hs, hm, hout⟩ := create_output_eq_ok h
  rw [hr] at hd
  obtain rfl : rest = rest2 := Except.ok.inj hd
  subst hout
  refine ⟨writeLoop_count rest (pyStr mean), fun hpos => ?_⟩
  obtain ⟨s, t, hst⟩ := writeLoop_pattern_infix (pyStr mean) hpos
  exact ⟨pyStr mean, s, t, hst⟩

/-- Claim C9 witness: the end-sentinel duplication evaluated on the
scenario input. -/
theorem claim9_end_sentinel_duplicated_witness :
    create_output scenarioInput = (true, scenarioOutput, none) ∧
      dropToStart scenarioInput = Except.ok scenarioInput ∧
      (scenarioOutput.count PRINTEND = 2 * scenarioInput.count PRINTEND ∧
        (0 < scenarioInput.count PRINTEND → ∃ m s t,
          s ++ (PRINTEND :: (injectedBlock m ++ [PRINTEND])) ++ t
            = scenarioOutput)) :=
  ⟨by decide, by decide,
    claim9_end_sentinel_duplicated scenarioInput scenarioOutput scenarioInput
      (by decide) (by decide)⟩

/-- Claim C10: for a line starting with the command prefix at an eligible
layer, the scan performs exactly one sampling step — appending the value of
the line's first pattern occurrence, or nothing (and no error) when no
substring of the line matches — and the pattern search satisfies its
leftmost-match characterization `searchXSpec`, which searches the whole
line, comment text included. -/
theorem claim10_sampler_first_match (line : String) (rest : List String)
    (k : Nat) (hG : line.data.head? = some 'G') (hk : IGNOREDLAYERS < k) :
    scanLoop (line :: rest) k = sampleStep line (scanLoop rest k) ∧
      searchXSpec line.data :=
  ⟨scanLoop_cons_eligible hG hk, searchX_meets_spec line.data⟩

/-- Claim C10 witness: the sampler step and the search characterization
evaluated on a command line whose first pattern occurrence is `X10.05` and
whose comment text contains a second occurrence. -/
theorem claim10_sampler_first_match_witness :
    ("G1 X10.05 ; X99.9\n".data.head? = some 'G' ∧ IGNOREDLAYERS < 3) ∧
      (scanLoop ["G1 X10.05 ; X99.9\n"] 3
          = sampleStep "G1 X10.05 ; X99.9\n" (scanLoop [] 3) ∧
        searchXSpec "G1 X10.05 ; X99.9\n".data) :=
  ⟨⟨by decide, by decide⟩,
    claim10_sampler_first_match "G1 X10.05 ; X99.9\n" [] 3 (by decide)
      (by decide)⟩

end PrintusEjectus
